import Mathlib

/-!
Verification of the AutoPaper workflow-orchestration engine against its
natural-language specification.  The definitions below are a shallow
embedding of the Python source:

- app.py: save_version, get_latest_version, run_interactive_multi_agent_process
- models.py: PaperProject.get_latest_version
- agents/supervisor_agent.py: SupervisorAgent.process, _evaluate_review_feedback
- agents/communication_agent.py: CommunicationAgent.register_agent, send_message
- agents/research_agent.py: ResearchAgent.process and its helpers

External effects (database rows, LLM calls, provider HTTP calls, sleeps,
timestamps) are made explicit: the database is a value threaded through the
functions, fallible external calls are oracles of type Except String _, and
sleeps are recorded in a trace list.
-/

set_option autoImplicit false

namespace AutoPaper

/-- A row of the version table (models.py PaperVersion):
id, project_id, content_type, version_number, content, created_at.
Timestamps are abstract Nat instants. -/
structure PaperVersion where
  id : Nat
  projectId : Nat
  contentType : String
  versionNumber : Nat
  content : String
  createdAt : Nat
deriving Repr, DecidableEq

/-- A row of the project table (models.py PaperProject); only the fields the
claims touch: id, topic, status. -/
structure Project where
  id : Nat
  topic : String
  status : String
deriving Repr, DecidableEq

/-- The relational store: project rows, version rows, and the autoincrement
counter for version primary keys. -/
structure DB where
  projects : List Project
  versions : List PaperVersion
  nextVersionId : Nat
deriving Repr, DecidableEq

/-- One fold step of an ORDER BY field DESC LIMIT 1 query: a strictly greater
field value replaces the current candidate row. -/
def firstMaxStep (field : PaperVersion → Nat) (acc : Option PaperVersion)
    (v : PaperVersion) : Option PaperVersion :=
  match acc with
  | none => some v
  | some w => if field v > field w then some v else some w

/-- ORDER BY field DESC LIMIT 1 over a list of rows: the first row carrying
the maximal value of the field (among ties the earliest row is kept). -/
def firstMaxBy (field : PaperVersion → Nat) (rows : List PaperVersion) :
    Option PaperVersion :=
  rows.foldl (firstMaxStep field) none

/-- app.py get_latest_version: filter the version table by project_id and
content_type, order by version_number descending, take the first row. -/
def get_latest_version (db : DB) (projectId : Nat) (contentType : String) :
    Option PaperVersion :=
  firstMaxBy (fun v => v.versionNumber)
    (db.versions.filter
      (fun v => v.projectId == projectId && v.contentType == contentType))

/-- The read step of app.py save_version: query the latest version for
(project_id, content_type) and compute the next version_number
(latest + 1, or 1 when none exists). -/
def computeNextVersionNumber (db : DB) (projectId : Nat)
    (contentType : String) : Nat :=
  match get_latest_version db projectId contentType with
  | some latest => latest.versionNumber + 1
  | none => 1

/-- The write step of app.py save_version: build the new PaperVersion row and
append it to the version table (db.session.add followed by commit). -/
def insertVersion (db : DB) (projectId : Nat) (contentType : String)
    (content : String) (versionNumber : Nat) (now : Nat) :
    PaperVersion × DB :=
  let v : PaperVersion :=
    { id := db.nextVersionId
      projectId := projectId
      contentType := contentType
      versionNumber := versionNumber
      content := content
      createdAt := now }
  (v, { db with versions := db.versions ++ [v],
                nextVersionId := db.nextVersionId + 1 })

/-- app.py save_version: return None when the project is missing; otherwise
read the latest version number and insert a new row numbered latest+1
(1 when no version exists yet), returning the new row.  The read and the
insert are the two separate, unserialized steps the Python function
performs. -/
def save_version (db : DB) (projectId : Nat) (contentType : String)
    (content : String) (now : Nat) : Option PaperVersion × DB :=
  if db.projects.any (fun p => p.id == projectId) then
    let vn := computeNextVersionNumber db projectId contentType
    let (v, db2) := insertVersion db projectId contentType content vn now
    (some v, db2)
  else
    (none, db)

/-- The version_number column restricted to one (project_id, content_type)
key, in table order. -/
def seqNumbers (db : DB) (projectId : Nat) (contentType : String) :
    List Nat :=
  (db.versions.filter
    (fun v => v.projectId == projectId && v.contentType == contentType)).map
    (fun v => v.versionNumber)

/-- models.py PaperProject.get_latest_version: filter by project_id only,
order by created_at descending, take the first row; content_type and
version_number play no role. -/
def projectGetLatestVersion (db : DB) (projectId : Nat) :
    Option PaperVersion :=
  firstMaxBy (fun v => v.createdAt)
    (db.versions.filter (fun v => v.projectId == projectId))

/-! ### Supervisor (agents/supervisor_agent.py) -/

/-- The four LLM completions SupervisorAgent.process may request, one per
branch (instructions for research/writing/review, and the free-text
evaluation of review feedback). -/
structure SupervisorEnv where
  assignResearchResponse : String
  assignWritingResponse : String
  assignReviewResponse : String
  evaluationResponse : String
deriving Repr, DecidableEq

/-- The dictionary SupervisorAgent.process returns; only the keys the claims
touch (action, decision, instructions, evaluation). -/
structure SupervisorDecision where
  action : String
  decision : Option String
  instructions : Option String
  evaluation : Option String
deriving Repr, DecidableEq

/-- Is the needle a prefix-at-some-position of the haystack, over character
lists. -/
def containsSubList (needle : List Char) : List Char → Bool
  | [] => needle.isEmpty
  | c :: rest => needle.isPrefixOf (c :: rest) || containsSubList needle rest

/-- Python substring containment (the `in` operator on strings). -/
def containsSub (hay needle : String) : Bool :=
  containsSubList needle.toList hay.toList

/-- SupervisorAgent._evaluate_review_feedback, decision extraction: the exact
substrings "Accept the feedback" / "accept the feedback" select
action=write, decision=revise; otherwise the exact substrings
"Reject the feedback" / "reject the feedback" select action=review,
decision=reject_feedback; otherwise action=complete, decision=complete. -/
def evaluateReviewFeedback (evaluation : String) : SupervisorDecision :=
  if containsSub evaluation "Accept the feedback" ||
      containsSub evaluation "accept the feedback" then
    { action := "write", decision := some "revise",
      instructions := none, evaluation := some evaluation }
  else if containsSub evaluation "Reject the feedback" ||
      containsSub evaluation "reject the feedback" then
    { action := "review", decision := some "reject_feedback",
      instructions := none, evaluation := some evaluation }
  else
    { action := "complete", decision := some "complete",
      instructions := none, evaluation := some evaluation }

/-- SupervisorAgent.process: dispatch on which phase outputs are present
(None checks, in order research_result, paper_draft, review_feedback);
with all three present, evaluate the review feedback. -/
def supervisorProcess (env : SupervisorEnv)
    (researchResult paperDraft reviewFeedback : Option String) :
    SupervisorDecision :=
  match researchResult with
  | none =>
    { action := "research", decision := none,
      instructions := some env.assignResearchResponse, evaluation := none }
  | some _ =>
    match paperDraft with
    | none =>
      { action := "write", decision := none,
        instructions := some env.assignWritingResponse, evaluation := none }
    | some _ =>
      match reviewFeedback with
      | none =>
        { action := "review", decision := none,
          instructions := some env.assignReviewResponse, evaluation := none }
      | some _ => evaluateReviewFeedback env.evaluationResponse

/-! ### CommunicationBus (agents/communication_agent.py) -/

/-- One entry of CommunicationAgent.agent_states. -/
structure AgentState where
  type : String
  description : String
  status : String
  lastActive : Nat
deriving Repr, DecidableEq

/-- One message object inside a conversation. -/
structure Message where
  id : Nat
  sender : String
  recipient : String
  content : String
  type : String
  timestamp : Nat
deriving Repr, DecidableEq

/-- One entry of CommunicationAgent.conversations. -/
structure Conversation where
  participants : List String
  started : Nat
  messages : List Message
  updated : Option Nat
deriving Repr, DecidableEq, Inhabited

/-- Lookup in a Python dict modelled as an association list (insertion
order preserved, keys unique by construction). -/
def alookup {α : Type} (l : List (String × α)) (k : String) : Option α :=
  match l with
  | [] => none
  | (k2, v) :: rest => if k2 == k then some v else alookup rest k

/-- In-place update of one key of a Python dict modelled as an association
list (keys are unique by construction, so updating every matching entry
coincides with the dict update). -/
def amodify {α : Type} (l : List (String × α)) (k : String) (f : α → α) :
    List (String × α) :=
  match l with
  | [] => []
  | (k2, v) :: rest =>
    if k2 == k then (k2, f v) :: amodify rest k f
    else (k2, v) :: amodify rest k f

/-- The mutable state of a CommunicationAgent: the agent registry and the
conversation log. -/
structure CommState where
  agentStates : List (String × AgentState)
  conversations : List (String × Conversation)
deriving Repr, DecidableEq

/-- Python str.capitalize: first character uppercased, the rest lowercased. -/
def pyCapitalize (s : String) : String :=
  match s.toList with
  | [] => ""
  | c :: rest => String.mk (c.toUpper :: rest.map Char.toLower)

/-- CommunicationAgent.register_agent: a no-op returning False when the id is
already registered, otherwise insert an idle entry and return True. -/
def register_agent (st : CommState) (agentId agentType : String)
    (description : Option String) (now : Nat) : Bool × CommState :=
  if (alookup st.agentStates agentId).isNone then
    (true,
      { st with agentStates := st.agentStates ++
          [(agentId,
            { type := agentType
              description := description.getD (pyCapitalize agentType ++ " Agent")
              status := "idle"
              lastActive := now })] })
  else
    (false, st)

/-- Result dictionary of CommunicationAgent.send_message. -/
inductive SendResult where
  | failure (error : String)
  | success (conversationId : String) (messageId : Nat)
deriving Repr, DecidableEq

/-- The conversation id send_message resolves: sender_recipient, except that
an existing reverse-direction conversation is reused when the forward id
does not exist yet. -/
def canonicalConvId (st : CommState) (senderId recipientId : String) :
    String :=
  let convId := senderId ++ "_" ++ recipientId
  let altConvId := recipientId ++ "_" ++ senderId
  if (alookup st.conversations altConvId).isSome &&
      (alookup st.conversations convId).isNone then
    altConvId
  else
    convId

/-- CommunicationAgent.send_message: fail with "Unknown sender" or
"Unknown recipient" when the respective id is unregistered (sender checked
first); otherwise resolve the canonical conversation id, create the
conversation lazily, append a message with id = len(messages)+1, stamp the
conversation updated, set the sender status/last_active and the recipient
status (the code does not touch the recipient last_active). -/
def send_message (st : CommState) (senderId recipientId message messageType :
    String) (now : Nat) : SendResult × CommState :=
  if (alookup st.agentStates senderId).isNone then
    (SendResult.failure "Unknown sender", st)
  else if (alookup st.agentStates recipientId).isNone then
    (SendResult.failure "Unknown recipient", st)
  else
    let convId := canonicalConvId st senderId recipientId
    let st1 :=
      if (alookup st.conversations convId).isNone then
        { st with conversations := st.conversations ++
            [(convId,
              { participants := [senderId, recipientId]
                started := now
                messages := []
                updated := none })] }
      else
        st
    let conv := (alookup st1.conversations convId).getD default
    let messageObj : Message :=
      { id := conv.messages.length + 1
        sender := senderId
        recipient := recipientId
        content := message
        type := messageType
        timestamp := now }
    let st2 :=
      { st1 with conversations :=
          (amodify st1.conversations convId
            (fun c => { c with messages := c.messages ++ [messageObj],
                               updated := some now })) }
    let st3 :=
      { st2 with agentStates :=
          (amodify st2.agentStates senderId
            (fun a => { a with lastActive := now, status := "sent_message" })) }
    let st4 :=
      { st3 with agentStates :=
          (amodify st3.agentStates recipientId
            (fun a => { a with status := "received_message" })) }
    (SendResult.success convId messageObj.id, st4)

/-! ### ResearchAggregator (agents/research_agent.py) -/

/-- A raw provider record (the per-provider dict), with optional keys as the
formatting helpers read them via dict.get. -/
structure RawPaper where
  title : Option String
  authors : List String
  summary : Option String
  abstract : Option String
  url : Option String
  published : Option String
  year : Option String
  journal : Option String
  publication : Option String
  rawId : Option String
deriving Repr, DecidableEq

/-- A normalized paper record produced by the aggregator.  Keys a given
source does not set are modelled as "" (respectively [] for keyPoints). -/
structure Paper where
  title : String
  authors : List String
  abstract : String
  url : String
  year : String
  journal : String
  published : String
  keyPoints : List String
  source : String
deriving Repr, DecidableEq

/-- A paper object parsed from the JSON array of the LLM fallback call. -/
structure LLMPaper where
  title : Option String
  authors : List String
  abstract : Option String
  year : Option String
  journal : Option String
deriving Repr, DecidableEq

/-- Python str.strip(): remove leading and trailing whitespace.  Implemented
over the character list so that terms reduce inside the kernel. -/
def pyStrip (s : String) : String :=
  String.mk
    (((s.data.dropWhile Char.isWhitespace).reverse.dropWhile
      Char.isWhitespace).reverse)

/-- Split a character list at every occurrence of one separator character,
keeping empty parts (Python str.split with a one-character separator). -/
def splitOnCharList (sep : Char) : List Char → List (List Char)
  | [] => [[]]
  | c :: rest =>
    match splitOnCharList sep rest with
    | [] => [[]]
    | part :: parts =>
      if c == sep then [] :: part :: parts else (c :: part) :: parts

/-- Python str.split(sep) for a one-character separator. -/
def pySplitOnChar (sep : Char) (s : String) : List String :=
  (splitOnCharList sep s.data).map String.mk

/-- The character set Python lstrip removes from list items in
_extract_key_points_from_abstract. -/
def keyPointMarkers : String := "1234567890.-*• "

/-- point.strip().lstrip(markers) on one key-point line. -/
def stripListMarkers (point : String) : String :=
  String.mk
    ((pyStrip point).data.dropWhile (fun c => keyPointMarkers.data.contains c))

/-- The while-loop padding key points with the placeholder string until the
list has at least 3 entries. -/
def padKeyPoints (points : List String) : List String :=
  points ++ List.replicate (3 - points.length) "Additional information not available"

/-- The non-LLM fallback of _extract_key_points_from_abstract: split the
abstract on periods, keep up to 3 trimmed sentences of length strictly
between 20 and 100, pad with placeholders to 3 entries. -/
def fallbackKeyPoints (abstract : String) : List String :=
  padKeyPoints
    ((((pySplitOnChar '.' abstract).map (fun s => pyStrip s)).filter
      (fun s => 20 < s.length && s.length < 100)).take 3)

/-- ResearchAgent._extract_key_points_from_abstract: a single placeholder for
empty or short abstracts; otherwise an LLM call whose non-empty response is
split into lines, cleaned of list markers, truncated to 3 and padded to 3;
on an LLM failure or empty response, the sentence-based fallback. -/
def extractKeyPointsFromAbstract (llm : String → Except String String)
    (abstract : String) : List String :=
  if (pyStrip abstract).length < 20 then
    ["No key points available"]
  else
    match llm abstract with
    | Except.ok response =>
      if response.data.isEmpty then
        fallbackKeyPoints abstract
      else
        padKeyPoints
          (((((pySplitOnChar '\n' response).map (fun l => pyStrip l)).filter
            (fun l => !l.data.isEmpty)).map stripListMarkers).take 3)
    | Except.error _ => fallbackKeyPoints abstract

/-- ResearchAgent._format_arxiv_papers on one record. -/
def formatArxivPaper (llm : String → Except String String) (p : RawPaper) :
    Paper :=
  let abstract := p.summary.getD "No abstract available"
  let pub := p.published.getD ""
  { title := p.title.getD "Unknown Title"
    authors := p.authors
    abstract := abstract
    url := p.url.getD ""
    year := if pub.data.isEmpty then ""
            else ((pySplitOnChar '-' pub).headD "")
    journal := ""
    published := ""
    keyPoints := extractKeyPointsFromAbstract llm abstract
    source := "arxiv" }

/-- ResearchAgent._format_google_scholar_papers on one record. -/
def formatGoogleScholarPaper (llm : String → Except String String)
    (p : RawPaper) : Paper :=
  let abstract := p.abstract.getD "No abstract available"
  { title := p.title.getD "Unknown Title"
    authors := p.authors
    abstract := abstract
    url := p.url.getD ""
    year := p.year.getD ""
    journal := p.publication.getD ""
    published := ""
    keyPoints := extractKeyPointsFromAbstract llm abstract
    source := "google_scholar" }

/-- ResearchAgent._format_pubmed_papers on one record. -/
def formatPubmedPaper (llm : String → Except String String) (p : RawPaper) :
    Paper :=
  let abstract := p.abstract.getD "No abstract available"
  { title := p.title.getD "Unknown Title"
    authors := p.authors
    abstract := abstract
    url := p.url.getD ""
    year := p.year.getD ""
    journal := p.journal.getD ""
    published := ""
    keyPoints := extractKeyPointsFromAbstract llm abstract
    source := "pubmed" }

/-- The fixed title patterns of ResearchAgent._create_llm_generated_papers. -/
def llmGeneratedTitles (topic : String) : List String :=
  [ topic ++ "的研究现状与进展综述"
  , topic ++ "在临床医学中的应用与评价"
  , topic ++ "核心技术与算法优化研究"
  , topic ++ "数据处理与模型训练方法探讨"
  , topic ++ "与传统方法的对比分析"
  , "人工智能与" ++ topic ++ "的交叉融合研究"
  , topic ++ "在专科领域的优化应用" ]

/-- The fixed abstract patterns of ResearchAgent._create_llm_generated_papers. -/
def llmGeneratedAbstracts (topic : String) : List String :=
  [ "本文综述了" ++ topic ++ "的最新研究进展，包括核心技术原理、应用场景和临床效果评估。研究表明，" ++ topic ++ "在医疗决策支持方面展现出巨大潜力，可显著提高诊断准确率和治疗方案优化。未来研究方向包括模型轻量化、多模态融合和知识图谱集成等。"
  , "本研究详细分析了" ++ topic ++ "在临床医学中的实际应用效果。通过对比实验，证明" ++ topic ++ "在诊断准确性、处理速度和辅助决策方面的优势。研究同时指出了数据隐私保护、算法可解释性等需要进一步改进的关键问题。"
  , "本文针对" ++ topic ++ "的核心技术展开深入研究，提出了一种改进的模型结构和训练方法。实验结果表明，优化后的" ++ topic ++ "在特定医疗场景下，准确率提升了15%，推理速度提高了30%，为临床应用提供了更可靠的技术支持。"
  , "本研究提出了一种针对医疗数据特点的" ++ topic ++ "预处理流程和训练框架。通过对不平衡数据的处理、数据增强和迁移学习技术的应用，有效解决了医疗领域数据稀缺的问题，同时保证了模型性能和泛化能力。"
  , "本文对比分析了" ++ topic ++ "与传统医疗方法在效率、准确性和成本方面的差异。研究表明，在多数场景下，" ++ topic ++ "能够显著减少医生工作负担，同时保持或提高诊断质量。但在某些复杂情况下，仍需结合专家经验进行辅助决策。" ]

/-- The i-th offline template paper.  The random author characters and the
random recent date of the Python code are modelled by fixed choices; no
claim depends on them.  These papers carry no source key, modelled "". -/
def llmGeneratedPaper (topic : String) (i : Nat) : Paper :=
  { title := (llmGeneratedTitles topic).getD i ""
    authors := ["王明", "李明", "张明"]
    abstract := (llmGeneratedAbstracts topic).getD (i % 5) ""
    url := "https://example.com/generated-papers/" ++ topic ++ "/" ++ toString (i + 1)
    year := ""
    journal := ""
    published := "2024-01-01"
    keyPoints :=
      [ topic ++ "在医疗领域的关键应用场景"
      , topic ++ "技术实现的核心挑战与解决方案"
      , topic ++ "未来研究和应用趋势分析" ]
    source := "" }

/-- ResearchAgent._create_llm_generated_papers: min(count, 7) offline
template papers. -/
def createLlmGeneratedPapers (topic : String) (count : Nat) : List Paper :=
  (List.range (min count (llmGeneratedTitles topic).length)).map
    (llmGeneratedPaper topic)

/-- Formatting of one paper of the LLM JSON fallback in
ResearchAgent.process (the llm_suggested branch); note it extracts no key
points. -/
def formatLlmSuggestedPaper (topic : String) (p : LLMPaper) : Paper :=
  let title := p.title.getD ""
  { title := title
    authors := p.authors
    abstract := p.abstract.getD ""
    year := p.year.getD ""
    journal := p.journal.getD ""
    url := "https://example.com/generated-papers/" ++ topic ++ "/" ++
      String.mk (title.data.map (fun c => if c == ' ' then '-' else c))
    published := ""
    keyPoints := []
    source := "llm_suggested" }

/-- The external world of one ResearchAgent.process run: per-attempt provider
results, the LLM paper-generation fallback (API call plus JSON parse,
collapsed to one fallible call), and the key-point summarization oracle. -/
structure ProviderEnv where
  arxiv : Nat → Except String (List RawPaper)
  scholar : Nat → Except String (List RawPaper)
  pubmed : Nat → Except String (List RawPaper)
  llmPapers : Except String (List LLMPaper)
  keyPointsLLM : String → Except String String

/-- What one source contributes: its formatted papers, the last recorded
exception message, the sleeps performed, the number of provider calls
made, and whether the source name is a known branch. -/
structure SourceResult where
  papers : List Paper
  errorMessage : Option String
  sleeps : List Nat
  attemptsMade : Nat
  known : Bool
deriving Repr, DecidableEq

/-- ResearchAgent.__init__: max_retry_attempts = 3. -/
def maxRetryAttempts : Nat := 3

/-- ResearchAgent.__init__: retry_delay = 5 seconds. -/
def retryDelay : Nat := 5

/-- The per-source retry loop of ResearchAgent.process: on a result with at
least one paper, format it and stop; on a zero-result response, retry
without sleeping; on an exception, record the message, sleep retry_delay
when the branch sleeps (arXiv and PubMed do, Google Scholar does not), and
retry.  The fuel argument is the remaining range(...) iterations. -/
def attemptLoop (call : Nat → Except String (List RawPaper))
    (format : List RawPaper → List Paper) (sleepDelay : Nat)
    (sleepOnError : Bool) :
    Nat → Nat → Option String → List Nat → SourceResult
  | attempt, 0, errMsg, sleeps =>
    { papers := [], errorMessage := errMsg, sleeps := sleeps,
      attemptsMade := attempt, known := true }
  | attempt, remaining + 1, errMsg, sleeps =>
    match call attempt with
    | Except.ok raw =>
      if raw.isEmpty then
        attemptLoop call format sleepDelay sleepOnError (attempt + 1)
          remaining errMsg sleeps
      else
        { papers := format raw, errorMessage := errMsg, sleeps := sleeps,
          attemptsMade := attempt + 1, known := true }
    | Except.error e =>
      attemptLoop call format sleepDelay sleepOnError (attempt + 1)
        remaining (some e)
        (if sleepOnError then sleeps ++ [sleepDelay] else sleeps)

/-- The source dispatch of ResearchAgent.process: arXiv and PubMed get
max_retry_attempts attempts with a sleep after each exception, Google
Scholar gets a single attempt and never sleeps, any other source name
matches no branch and does nothing. -/
def runSource (env : ProviderEnv) (source : String) : SourceResult :=
  if source == "arxiv" then
    attemptLoop env.arxiv (fun l => l.map (formatArxivPaper env.keyPointsLLM))
      retryDelay true 0 maxRetryAttempts none []
  else if source == "google_scholar" then
    attemptLoop env.scholar
      (fun l => l.map (formatGoogleScholarPaper env.keyPointsLLM))
      retryDelay false 0 1 none []
  else if source == "pubmed" then
    attemptLoop env.pubmed
      (fun l => l.map (formatPubmedPaper env.keyPointsLLM))
      retryDelay true 0 maxRetryAttempts none []
  else
    { papers := [], errorMessage := none, sleeps := [], attemptsMade := 0,
      known := false }

/-- The result dictionary of ResearchAgent.process restricted to the keys
the claims touch (the summary/analysis strings are opaque prose and no
claim mentions them). -/
structure ResearchResult where
  papers : List Paper
  source : String
  successfulSources : List String
  failedSources : List (String × String)
deriving Repr, DecidableEq

/-- A process result together with the trace of sleeps performed. -/
structure ProcessOutcome where
  result : ResearchResult
  sleeps : List Nat
deriving Repr, DecidableEq

/-- The accumulator of the for-loop over research sources. -/
structure LoopAcc where
  allPapers : List Paper
  successfulSources : List String
  failedSources : List (String × String)
  sleeps : List Nat
deriving Repr, DecidableEq

/-- One iteration of the for-loop over research sources: extend all_papers,
append to successful_sources on success, record a failed_sources entry
(last exception message, or "No papers found") for a known source that
produced no papers. -/
def sourceLoopStep (env : ProviderEnv) (acc : LoopAcc) (source : String) :
    LoopAcc :=
  let r := runSource env source
  { allPapers := acc.allPapers ++ r.papers
    successfulSources := acc.successfulSources ++
      (if !r.papers.isEmpty then [source] else [])
    failedSources := acc.failedSources ++
      (if r.known && r.papers.isEmpty then
        [(source, r.errorMessage.getD "No papers found")]
      else [])
    sleeps := acc.sleeps ++ r.sleeps }

/-- The first half of ResearchAgent.process: the "none" source goes straight
to the offline template generator, every other source list runs the
per-source retry loops in order, starting from empty accumulators. -/
def gatherPapersPhase (env : ProviderEnv) (researchSources : List String)
    (topic : String) : LoopAcc :=
  if researchSources == ["none"] then
    { allPapers := createLlmGeneratedPapers topic 5, successfulSources := [],
      failedSources := [], sleeps := [] }
  else
    researchSources.foldl (sourceLoopStep env)
      { allPapers := [], successfulSources := [], failedSources := [],
        sleeps := [] }

/-- ResearchAgent.process: gather papers from the selected sources; when no
source yielded any paper (and "none" was not selected) try the LLM JSON
fallback, and when that fails or parses to nothing run the offline
template generator.  The final source tag is llm_suggested /
llm_generated for the fallbacks and the comma-join of successful_sources
otherwise (which also overwrites the tag of the explicit none branch with
the empty join). -/
def researchProcess (env : ProviderEnv) (researchSources : List String)
    (topic : String) : ProcessOutcome :=
  let acc := gatherPapersPhase env researchSources topic
  if acc.allPapers.isEmpty && !(researchSources == ["none"]) then
    match env.llmPapers with
    | Except.ok llmList =>
      let papers := llmList.map (formatLlmSuggestedPaper topic)
      if !papers.isEmpty then
        { result :=
            { papers := papers, source := "llm_suggested",
              successfulSources := acc.successfulSources,
              failedSources := acc.failedSources }
          sleeps := acc.sleeps }
      else
        { result :=
            { papers := createLlmGeneratedPapers topic 5,
              source := "llm_generated",
              successfulSources := acc.successfulSources,
              failedSources := acc.failedSources }
          sleeps := acc.sleeps }
    | Except.error _ =>
      { result :=
          { papers := createLlmGeneratedPapers topic 5,
            source := "llm_generated",
            successfulSources := acc.successfulSources,
            failedSources := acc.failedSources }
        sleeps := acc.sleeps }
  else
    { result :=
        { papers := acc.allPapers,
          source := String.intercalate "," acc.successfulSources,
          successfulSources := acc.successfulSources,
          failedSources := acc.failedSources }
      sleeps := acc.sleeps }

/-! ### WorkflowRunner (app.py run_interactive_multi_agent_process) -/

/-- The four agent calls one workflow run makes, as oracles: research on the
topic, writing from the research result, review of the draft, and the
final revision from draft and feedback.  An error value models the agent
call raising. -/
structure RunnerEnv where
  research : Except String String
  writing : String → Except String String
  review : String → Except String String
  revise : String → String → Except String String

/-- Outcome of one workflow run: the final database and how many phase
bodies were entered before the run ended. -/
structure RunOutcome where
  db : DB
  phasesAttempted : Nat
deriving Repr, DecidableEq

/-- Set the status column of one project row. -/
def setProjectStatus (db : DB) (projectId : Nat) (status : String) : DB :=
  { db with projects :=
      (db.projects.map
        (fun p => if p.id == projectId then { p with status := status }
                  else p)) }

/-- Read the status column of one project row. -/
def projectStatus (db : DB) (projectId : Nat) : Option String :=
  (db.projects.find? (fun p => p.id == projectId)).map (fun p => p.status)

/-- app.py run_interactive_multi_agent_process: a fixed linear pipeline
research → write → review → final revision, each phase saving its output
via save_version.  Every phase exception re-raises into the outer handler,
which sets the project status to "failed" and ends the run; after all four
phases the status becomes "completed".  There is no iteration loop, no
error budget and no supervisor call. -/
def runInteractiveMultiAgentProcess (env : RunnerEnv) (db : DB)
    (projectId : Nat) (now : Nat) : RunOutcome :=
  if (db.projects.find? (fun p => p.id == projectId)).isNone then
    { db := db, phasesAttempted := 0 }
  else
    match env.research with
    | Except.error _ =>
      { db := setProjectStatus db projectId "failed", phasesAttempted := 1 }
    | Except.ok researchResult =>
      let db1 := (save_version db projectId "research" researchResult now).2
      match env.writing researchResult with
      | Except.error _ =>
        { db := setProjectStatus db1 projectId "failed", phasesAttempted := 2 }
      | Except.ok paperDraft =>
        let db2 := (save_version db1 projectId "draft" paperDraft now).2
        match env.review paperDraft with
        | Except.error _ =>
          { db := setProjectStatus db2 projectId "failed",
            phasesAttempted := 3 }
        | Except.ok reviewFeedback =>
          let db3 := (save_version db2 projectId "review" reviewFeedback now).2
          match env.revise paperDraft reviewFeedback with
          | Except.error _ =>
            { db := setProjectStatus db3 projectId "failed",
              phasesAttempted := 4 }
          | Except.ok finalPaper =>
            let db4 := (save_version db3 projectId "final" finalPaper now).2
            { db := setProjectStatus db4 projectId "completed",
              phasesAttempted := 4 }

/-! ### Derived notions and concrete example inputs used by the claims -/

/-- The messages currently stored under one conversation id (empty when the
conversation does not exist yet). -/
def convMessages (st : CommState) (conversationId : String) : List Message :=
  ((alookup st.conversations conversationId).map (fun c => c.messages)).getD []

/-- The ArtifactStore invariant: for every (project_id, content_type) key the
version_number column, in table order, is exactly 1, 2, ..., k. -/
def versionNumbersGapless (db : DB) : Prop :=
  ∀ (projectId : Nat) (contentType : String),
    seqNumbers db projectId contentType =
      List.range' 1 (seqNumbers db projectId contentType).length

/-- The row one save_version call creates (its fields, spelled out). -/
def newVersionRow (db : DB) (projectId : Nat) (contentType content : String)
    (now : Nat) : PaperVersion :=
  { id := db.nextVersionId
    projectId := projectId
    contentType := contentType
    versionNumber := computeNextVersionNumber db projectId contentType
    content := content
    createdAt := now }

/-- A store holding one project (id 1) and no versions. -/
def dbP1 : DB :=
  { projects := [{ id := 1, topic := "t", status := "created" }]
    versions := []
    nextVersionId := 1 }

/-- The interleaving of two concurrent save_version callers for
(1, "draft") on dbP1 in which both read the latest version number before
either inserts: read, read, insert, insert. -/
def c1RaceDb : DB :=
  (insertVersion
    (insertVersion dbP1 1 "draft" "a"
      (computeNextVersionNumber dbP1 1 "draft") 0).2
    1 "draft" "b" (computeNextVersionNumber dbP1 1 "draft") 0).2

/-- A draft version row with a later created_at but the smaller
version_number. -/
def c10RowA : PaperVersion :=
  { id := 1, projectId := 1, contentType := "draft", versionNumber := 1,
    content := "a", createdAt := 10 }

/-- A draft version row with the larger version_number but an earlier
created_at. -/
def c10RowB : PaperVersion :=
  { id := 2, projectId := 1, contentType := "draft", versionNumber := 2,
    content := "b", createdAt := 5 }

/-- A store where the most recently created row of project 1 is not the row
with the maximal version_number of its content_type. -/
def c10Db : DB :=
  { projects := [{ id := 1, topic := "t", status := "created" }]
    versions := [c10RowA, c10RowB]
    nextVersionId := 3 }

/-- An external world in which every provider attempt and every LLM call
fails. -/
def envAllFail : ProviderEnv :=
  { arxiv := fun _ => Except.error "boom"
    scholar := fun _ => Except.error "boom"
    pubmed := fun _ => Except.error "boom"
    llmPapers := Except.error "llm down"
    keyPointsLLM := fun _ => Except.error "llm down" }

/-- An arXiv record whose summary is shorter than 20 characters. -/
def shortRawPaper : RawPaper :=
  { title := some "T", authors := ["X"], summary := some "Short.",
    abstract := none, url := some "u", published := some "2020-01-01",
    year := none, journal := none, publication := none, rawId := some "1" }

/-- An external world whose arXiv provider immediately returns the short
record and whose key-point LLM answers three lines. -/
def envShortAbstract : ProviderEnv :=
  { arxiv := fun _ => Except.ok [shortRawPaper]
    scholar := fun _ => Except.error "unused"
    pubmed := fun _ => Except.error "unused"
    llmPapers := Except.error "unused"
    keyPointsLLM := fun _ => Except.ok "A\nB\nC" }

/-- Agent stubs that raise on every phase. -/
def runnerEnvAllRaise : RunnerEnv :=
  { research := Except.error "research raised"
    writing := fun _ => Except.error "writing raised"
    review := fun _ => Except.error "review raised"
    revise := fun _ _ => Except.error "revise raised" }

/-- A communication state with agents A and B registered at time 0 and no
conversations. -/
def commStateAB : CommState :=
  (register_agent
    (register_agent { agentStates := [], conversations := [] }
      "A" "research" none 0).2
    "B" "writing" none 0).2

/-! ### Helper lemmas -/

theorem firstMaxBy_aux (field : PaperVersion → Nat)
    (rows : List PaperVersion) :
    ∀ (acc : Option PaperVersion) (v : PaperVersion),
      rows.foldl (firstMaxStep field) acc = some v →
      (acc = some v ∨ v ∈ rows) ∧
      (∀ u, acc = some u → field u ≤ field v) ∧
      (∀ w ∈ rows, field w ≤ field v) := by
  induction rows with
  | nil =>
    intro acc v h
    simp only [List.foldl_nil] at h
    refine ⟨Or.inl h, ?_, by simp⟩
    intro u hu
    rw [hu] at h
    simp at h
    rw [h]
  | cons x xs ih =>
    intro acc v h
    simp only [List.foldl_cons] at h
    obtain ⟨ih1, ih2, ih3⟩ := ih (firstMaxStep field acc x) v h
    have hstep : ∀ u, firstMaxStep field acc x = some u → field u ≤ field v := by
      intro u hu
      exact ih2 u hu
    refine ⟨?_, ?_, ?_⟩
    · rcases ih1 with h1 | h1
      · cases acc with
        | none =>
          simp [firstMaxStep] at h1
          right
          simp [h1]
        | some w =>
          simp only [firstMaxStep] at h1
          by_cases hc : field x > field w
          · rw [if_pos hc] at h1
            right
            simp at h1
            simp [h1]
          · rw [if_neg hc] at h1
            left
            exact h1
      · right
        exact List.mem_cons_of_mem _ h1
    · intro u hu
      cases acc with
      | none => simp at hu
      | some w =>
        have hw : w = u := by simpa using hu
        subst hw
        by_cases hc : field x > field w
        · have hx : field x ≤ field v := by
            apply hstep
            simp [firstMaxStep, if_pos hc]
          exact le_of_lt hc |>.trans hx
        · apply hstep
          simp [firstMaxStep, if_neg hc]
    · intro w hw
      rcases List.mem_cons.mp hw with h1 | h1
      · subst h1
        cases acc with
        | none => exact hstep w rfl
        | some u =>
          by_cases hc : field w > field u
          · apply hstep
            simp [firstMaxStep, if_pos hc]
          · have hu : field u ≤ field v := by
              apply hstep
              simp [firstMaxStep, if_neg hc]
            exact (Nat.le_of_not_lt hc).trans hu
      · exact ih3 w h1

theorem firstMaxBy_mem (field : PaperVersion → Nat) (rows : List PaperVersion)
    (v : PaperVersion) (h : firstMaxBy field rows = some v) : v ∈ rows := by
  rcases (firstMaxBy_aux field rows none v h).1 with h1 | h1
  · exact absurd h1 (by simp)
  · exact h1

theorem firstMaxBy_max (field : PaperVersion → Nat) (rows : List PaperVersion)
    (v : PaperVersion) (h : firstMaxBy field rows = some v) :
    ∀ w ∈ rows, field w ≤ field v :=
  (firstMaxBy_aux field rows none v h).2.2

theorem firstMaxBy_isSome (field : PaperVersion → Nat)
    (rows : List PaperVersion) (hne : rows ≠ []) :
    (firstMaxBy field rows).isSome := by
  suffices H : ∀ (w : PaperVersion) (l : List PaperVersion),
      (l.foldl (firstMaxStep field) (some w)).isSome by
    cases rows with
    | nil => exact absurd rfl hne
    | cons x xs =>
      simp only [firstMaxBy, List.foldl_cons, firstMaxStep]
      exact H x xs
  intro w l
  induction l generalizing w with
  | nil => simp
  | cons y ys ih =>
    simp only [List.foldl_cons, firstMaxStep]
    by_cases hc : field y > field w
    · rw [if_pos hc]; exact ih y
    · rw [if_neg hc]; exact ih w

theorem firstMaxBy_append_gt (field : PaperVersion → Nat)
    (rows : List PaperVersion) (v : PaperVersion)
    (h : ∀ w ∈ rows, field w < field v) :
    firstMaxBy field (rows ++ [v]) = some v := by
  have hsplit : firstMaxBy field (rows ++ [v]) =
      firstMaxStep field (firstMaxBy field rows) v := by
    simp [firstMaxBy, List.foldl_append]
  rw [hsplit]
  cases hfm : firstMaxBy field rows with
  | none => simp [firstMaxStep]
  | some l =>
    have hl : field l < field v := h l (firstMaxBy_mem field rows l hfm)
    simp [firstMaxStep, hl]

theorem firstMaxBy_eq_none (field : PaperVersion → Nat)
    (rows : List PaperVersion) (h : firstMaxBy field rows = none) :
    rows = [] := by
  by_contra hne
  have := firstMaxBy_isSome field rows hne
  rw [h] at this
  simp at this

/-- Every version row matching a key has a number strictly below the next
number save_version would assign for that key. -/
theorem versionNumber_lt_next (db : DB) (projectId : Nat)
    (contentType : String) :
    ∀ w ∈ db.versions,
      (w.projectId == projectId && w.contentType == contentType) = true →
      w.versionNumber < computeNextVersionNumber db projectId contentType := by
  intro w hw hmatch
  have hwf : w ∈ db.versions.filter
      (fun v => v.projectId == projectId && v.contentType == contentType) :=
    List.mem_filter.mpr ⟨hw, hmatch⟩
  unfold computeNextVersionNumber
  cases hlat : get_latest_version db projectId contentType with
  | none =>
    have := firstMaxBy_eq_none _ _ hlat
    rw [this] at hwf
    simp at hwf
  | some l =>
    have hwl : w.versionNumber ≤ l.versionNumber :=
      firstMaxBy_max _ _ l hlat w hwf
    exact Nat.lt_succ_of_le hwl

/-- Unfolding of save_version when the project exists. -/
theorem save_version_eq (db : DB) (projectId : Nat)
    (contentType content : String) (now : Nat)
    (h : db.projects.any (fun p => p.id == projectId) = true) :
    save_version db projectId contentType content now =
      (some (newVersionRow db projectId contentType content now),
       { db with
         versions := (db.versions ++ [newVersionRow db projectId contentType content now])
         nextVersionId := db.nextVersionId + 1 }) := by
  simp [save_version, insertVersion, newVersionRow, h]

/-- Appending one version row extends the per-key number column by that row
number when the row matches the key and leaves it unchanged otherwise. -/
theorem seqNumbers_append (db : DB) (v : PaperVersion) (n : Nat)
    (projectId : Nat) (contentType : String) :
    seqNumbers { db with versions := db.versions ++ [v], nextVersionId := n }
        projectId contentType =
      seqNumbers db projectId contentType ++
        (if (v.projectId == projectId && v.contentType == contentType) = true
         then [v.versionNumber] else []) := by
  unfold seqNumbers
  simp only [List.filter_append, List.map_append]
  congr 1
  by_cases hc : (v.projectId == projectId && v.contentType == contentType) = true
  · simp [hc]
  · have hc2 : (v.projectId == projectId && v.contentType == contentType) = false :=
      Bool.eq_false_iff.mpr hc
    simp [hc2]

/-- Under the gapless invariant the next assigned number is the column
length plus one. -/
theorem next_of_gapless (db : DB) (projectId : Nat) (contentType : String)
    (h : seqNumbers db projectId contentType =
      List.range' 1 (seqNumbers db projectId contentType).length) :
    computeNextVersionNumber db projectId contentType =
      (seqNumbers db projectId contentType).length + 1 := by
  cases hk : (seqNumbers db projectId contentType).length with
  | zero =>
    have hempty : seqNumbers db projectId contentType = [] :=
      List.eq_nil_of_length_eq_zero hk
    have hfil : db.versions.filter
        (fun v => v.projectId == projectId && v.contentType == contentType) = [] :=
      List.map_eq_nil_iff.mp hempty
    unfold computeNextVersionNumber get_latest_version
    rw [hfil]
    simp [firstMaxBy]
  | succ m =>
    set filtered := db.versions.filter
      (fun v => v.projectId == projectId && v.contentType == contentType) with hfildef
    have hfne : filtered ≠ [] := by
      intro hcon
      have : seqNumbers db projectId contentType = [] := by
        unfold seqNumbers
        rw [← hfildef, hcon]
        simp
      rw [this] at hk
      simp at hk
    have hsome := firstMaxBy_isSome (fun v => v.versionNumber) filtered hfne
    obtain ⟨l, hl⟩ := Option.isSome_iff_exists.mp hsome
    have hlat : get_latest_version db projectId contentType = some l := by
      unfold get_latest_version
      rw [← hfildef]
      exact hl
    have hlmem : l ∈ filtered := firstMaxBy_mem _ _ l hl
    have hlnum : l.versionNumber ∈ seqNumbers db projectId contentType := by
      unfold seqNumbers
      rw [← hfildef]
      exact List.mem_map_of_mem _ hlmem
    have hlle : l.versionNumber ≤ m + 1 := by
      rw [h, hk] at hlnum
      rw [List.mem_range'_1] at hlnum
      omega
    have hkmem : (m + 1) ∈ seqNumbers db projectId contentType := by
      rw [h, hk, List.mem_range'_1]
      omega
    obtain ⟨w, hwmem, hwnum⟩ := List.mem_map.mp (by
      unfold seqNumbers at hkmem
      rw [← hfildef] at hkmem
      exact hkmem)
    have hge : w.versionNumber ≤ l.versionNumber :=
      firstMaxBy_max (fun v => v.versionNumber) filtered l hl w hwmem
    unfold computeNextVersionNumber
    rw [hlat]
    show l.versionNumber + 1 = m + 1 + 1
    omega

/-! ### Claims about the ArtifactStore (C1, C8, C10) -/

/-- C1, counterexample: save_version is literally a read step followed by an
insert step with nothing serializing them, so the interleaving of two
concurrent callers that both read before either inserts (the state
c1RaceDb) gives both writers version_number 1: the produced sequence is
[1, 1], not the claimed strictly increasing 1, 2.  The first conjunct
exhibits that save_version is exactly the composition of the two steps the
interleaving reorders. -/
theorem c1_concurrent_duplicate :
    save_version dbP1 1 "draft" "a" 0 =
      (some (insertVersion dbP1 1 "draft" "a"
        (computeNextVersionNumber dbP1 1 "draft") 0).1,
       (insertVersion dbP1 1 "draft" "a"
        (computeNextVersionNumber dbP1 1 "draft") 0).2) ∧
    computeNextVersionNumber dbP1 1 "draft" = 1 ∧
    seqNumbers c1RaceDb 1 "draft" = [1, 1] ∧
    ([1, 1] : List Nat) ≠ [1, 2] := by
  refine ⟨by decide, by decide, by decide, by decide⟩

/-- C1, amended: for sequential calls the claim holds: save_version on an
existing project assigns 1 + (latest version_number, or 0 when none),
inserts the row and returns it, and it preserves the invariant that the
version_number column of every (project_id, content_type) key is exactly
1, 2, ..., k — so repeated sequential calls produce 1, 2, 3, ... with no
gaps or repeats.  (The concurrent part of the claim fails, see the
counterexample.) -/
theorem c1_sequential_gapless (db : DB) (projectId : Nat)
    (contentType content : String) (now : Nat)
    (hproj : db.projects.any (fun p => p.id == projectId) = true)
    (hinv : versionNumbersGapless db) :
    ∃ v db2,
      save_version db projectId contentType content now = (some v, db2) ∧
      v.content = content ∧
      v.versionNumber = (seqNumbers db projectId contentType).length + 1 ∧
      seqNumbers db2 projectId contentType =
        seqNumbers db projectId contentType ++ [v.versionNumber] ∧
      versionNumbersGapless db2 := by
  refine ⟨newVersionRow db projectId contentType content now, _,
    save_version_eq db projectId contentType content now hproj, rfl, ?_, ?_, ?_⟩
  · show computeNextVersionNumber db projectId contentType = _
    exact next_of_gapless db projectId contentType (hinv projectId contentType)
  · rw [seqNumbers_append]
    have hmatch :
        ((newVersionRow db projectId contentType content now).projectId == projectId &&
         (newVersionRow db projectId contentType content now).contentType == contentType) = true := by
      simp [newVersionRow]
    rw [if_pos hmatch]
  · intro pid2 ctype2
    rw [seqNumbers_append]
    by_cases hc :
        ((newVersionRow db projectId contentType content now).projectId == pid2 &&
         (newVersionRow db projectId contentType content now).contentType == ctype2) = true
    · rw [if_pos hc]
      simp only [newVersionRow, beq_iff_eq, Bool.and_eq_true] at hc
      obtain ⟨hp, hct⟩ := hc
      subst hp
      subst hct
      have hlen := hinv projectId contentType
      have hnum : (newVersionRow db projectId contentType content now).versionNumber =
          (seqNumbers db projectId contentType).length + 1 :=
        next_of_gapless db projectId contentType (hinv projectId contentType)
      set n := (seqNumbers db projectId contentType).length with hn
      rw [hnum]
      have key : seqNumbers db projectId contentType ++ [n + 1] =
          List.range' 1 (n + 1) := by
        conv_lhs => rw [hlen]
        rw [List.range'_concat]
        simp [Nat.add_comm]
      rw [key]
      simp [List.length_range']
    · rw [if_neg hc]
      simp only [List.append_nil]
      exact hinv pid2 ctype2

/-- C1, witness: applying the amended theorem to the one-project empty store
shows the first saved draft gets version_number 1. -/
theorem c1_witness :
    seqNumbers (save_version dbP1 1 "draft" "c" 0).2 1 "draft" =
      seqNumbers dbP1 1 "draft" ++ [1] := by
  obtain ⟨v, db2, heq, hcont, hnum, hseq, hinv⟩ :=
    c1_sequential_gapless dbP1 1 "draft" "c" 0 (by decide) (fun _ _ => rfl)
  have h2 : (save_version dbP1 1 "draft" "c" 0).2 = db2 := by rw [heq]
  rw [h2, hseq, hnum]
  decide

/-- C8: on an existing project, get_latest_version immediately after
save_version returns exactly the just-inserted row: same content, and the
version_number that call assigned. -/
theorem c8_latest_roundtrip (db : DB) (projectId : Nat)
    (contentType content : String) (now : Nat)
    (hproj : db.projects.any (fun p => p.id == projectId) = true) :
    ∃ v db2,
      save_version db projectId contentType content now = (some v, db2) ∧
      v.content = content ∧
      v.versionNumber = computeNextVersionNumber db projectId contentType ∧
      get_latest_version db2 projectId contentType = some v := by
  refine ⟨newVersionRow db projectId contentType content now, _,
    save_version_eq db projectId contentType content now hproj, rfl, rfl, ?_⟩
  unfold get_latest_version
  simp only [List.filter_append]
  have hmatch :
      ((newVersionRow db projectId contentType content now).projectId == projectId &&
       (newVersionRow db projectId contentType content now).contentType == contentType) = true := by
    simp [newVersionRow]
  rw [show List.filter
      (fun v => v.projectId == projectId && v.contentType == contentType)
      [newVersionRow db projectId contentType content now] =
      [newVersionRow db projectId contentType content now] from by simp [hmatch]]
  apply firstMaxBy_append_gt
  intro w hw
  have hwf := List.mem_filter.mp hw
  exact versionNumber_lt_next db projectId contentType w hwf.1 hwf.2

/-- C8, witness: on the one-project empty store, saving "hello" as a draft
and reading the latest draft back yields content "hello". -/
theorem c8_witness :
    (get_latest_version (save_version dbP1 1 "draft" "hello" 0).2 1 "draft").map
      (fun v => v.content) = some "hello" := by
  obtain ⟨v, db2, heq, hcont, hnum, hlat⟩ :=
    c8_latest_roundtrip dbP1 1 "draft" "hello" 0 (by decide)
  have h2 : (save_version dbP1 1 "draft" "hello" 0).2 = db2 := by rw [heq]
  rw [h2, hlat]
  simp [hcont]

/-- C10: the model-level PaperProject.get_latest_version returns a row of the
project with maximal created_at among all rows of the project, with
content_type and version_number playing no role; on c10Db it returns the
row with version_number 1 although a version_number-2 row of the same
content_type exists, because the former was created later. -/
theorem c10_latest_by_created_at :
    (∀ (db : DB) (projectId : Nat) (v : PaperVersion),
      projectGetLatestVersion db projectId = some v →
      v ∈ db.versions ∧ v.projectId = projectId ∧
      ∀ w ∈ db.versions, w.projectId = projectId →
        w.createdAt ≤ v.createdAt) ∧
    projectGetLatestVersion c10Db 1 = some c10RowA ∧
    c10RowA.contentType = "draft" ∧ c10RowA.versionNumber = 1 ∧
    c10RowB ∈ c10Db.versions ∧ c10RowB.contentType = "draft" ∧
    c10RowB.versionNumber = 2 := by
  constructor
  · intro db projectId v h
    unfold projectGetLatestVersion at h
    have hmem := firstMaxBy_mem _ _ v h
    have hf := List.mem_filter.mp hmem
    refine ⟨hf.1, by simpa using hf.2, ?_⟩
    intro w hw hwp
    have hwf : w ∈ db.versions.filter (fun x => x.projectId == projectId) :=
      List.mem_filter.mpr ⟨hw, by simp [hwp]⟩
    exact firstMaxBy_max _ _ v h w hwf
  · refine ⟨by decide, rfl, rfl, by decide, rfl, rfl⟩

/-- C10, witness: the universal part applied to c10Db instantiated at the
version_number-2 row. -/
theorem c10_witness : c10RowB.createdAt ≤ c10RowA.createdAt :=
  (c10_latest_by_created_at.1 c10Db 1 c10RowA (by decide)).2.2 c10RowB
    (by decide) (by decide)

/-! ### Claims about the Supervisor (C3, C4) -/

/-- C3: the Supervisor decision dispatches by presence of the phase outputs:
no research result gives action research; research but no draft gives
write; research and draft but no feedback gives review; all three present
hands off to the feedback evaluation. -/
theorem c3_supervisor_dispatch (env : SupervisorEnv)
    (d0 f0 : Option String) (r d f : String) :
    (supervisorProcess env none d0 f0).action = "research" ∧
    (supervisorProcess env (some r) none f0).action = "write" ∧
    (supervisorProcess env (some r) (some d) none).action = "review" ∧
    supervisorProcess env (some r) (some d) (some f) =
      evaluateReviewFeedback env.evaluationResponse :=
  ⟨rfl, rfl, rfl, rfl⟩

/-- C4, counterexample: the matching is not case-insensitive.  The answer
"ACCEPT THE FEEDBACK" contains the accept phrase up to capitalization, yet
the code only tests the two spellings "Accept the feedback" and
"accept the feedback", so the decision falls through to complete instead
of the claimed write/revise. -/
theorem c4_uppercase_not_matched :
    (evaluateReviewFeedback "ACCEPT THE FEEDBACK").action = "complete" ∧
    (evaluateReviewFeedback "ACCEPT THE FEEDBACK").decision = some "complete" ∧
    ("complete" : String) ≠ "write" := by
  refine ⟨by decide, by decide, by decide⟩

/-- C4, amended: the decision is extracted by exact substring match of the
two spellings "Accept the feedback" / "accept the feedback" (and likewise
for reject), not case-insensitively: an answer containing either accept
spelling gives action write with decision revise; an answer containing a
reject spelling but no accept spelling gives action review; an answer
containing none of the four spellings gives action complete. -/
theorem c4_substring_decision (e : String) :
    ((containsSub e "Accept the feedback" ||
      containsSub e "accept the feedback") = true →
      (evaluateReviewFeedback e).action = "write" ∧
      (evaluateReviewFeedback e).decision = some "revise") ∧
    ((containsSub e "Accept the feedback" ||
      containsSub e "accept the feedback") = false →
      (containsSub e "Reject the feedback" ||
       containsSub e "reject the feedback") = true →
      (evaluateReviewFeedback e).action = "review" ∧
      (evaluateReviewFeedback e).decision = some "reject_feedback") ∧
    ((containsSub e "Accept the feedback" ||
      containsSub e "accept the feedback") = false →
      (containsSub e "Reject the feedback" ||
       containsSub e "reject the feedback") = false →
      (evaluateReviewFeedback e).action = "complete" ∧
      (evaluateReviewFeedback e).decision = some "complete") := by
  refine ⟨?_, ?_, ?_⟩
  · intro h
    simp [evaluateReviewFeedback, h]
  · intro h1 h2
    simp [evaluateReviewFeedback, h1, h2]
  · intro h1 h2
    simp [evaluateReviewFeedback, h1, h2]

/-- C4, witness: the amended theorem applied to an answer containing the
lowercase accept spelling. -/
theorem c4_witness :
    (evaluateReviewFeedback "I accept the feedback as given").action =
      "write" :=
  ((c4_substring_decision "I accept the feedback as given").1 (by decide)).1

/-! ### Claims about the WorkflowRunner (C5) -/

theorem find?_map_setStatus (ps : List Project) (projectId : Nat)
    (s : String) :
    (ps.map (fun p => if p.id == projectId then { p with status := s }
                      else p)).find? (fun p => p.id == projectId) =
      (ps.find? (fun p => p.id == projectId)).map
        (fun p => { p with status := s }) := by
  induction ps with
  | nil => rfl
  | cons p rest ih =>
    by_cases hp : (p.id == projectId) = true
    · simp only [List.map_cons, if_pos hp]
      have h1 : List.find? (fun q => q.id == projectId)
          ({ p with status := s } :: List.map
            (fun q => if q.id == projectId then { q with status := s } else q)
            rest) = some { p with status := s } :=
        List.find?_cons_of_pos _ (by simpa using hp)
      have h2 : List.find? (fun q => q.id == projectId) (p :: rest) = some p :=
        List.find?_cons_of_pos _ hp
      rw [h1, h2]
      rfl
    · simp only [List.map_cons, if_neg hp]
      have h1 : List.find? (fun q => q.id == projectId)
          (p :: List.map
            (fun q => if q.id == projectId then { q with status := s } else q)
            rest) = List.find? (fun q => q.id == projectId)
              (List.map (fun q => if q.id == projectId then { q with status := s }
                else q) rest) :=
        List.find?_cons_of_neg _ (by simpa using hp)
      have h2 : List.find? (fun q => q.id == projectId) (p :: rest) =
          List.find? (fun q => q.id == projectId) rest :=
        List.find?_cons_of_neg _ (by simpa using hp)
      rw [h1, h2]
      exact ih

theorem projectStatus_setProjectStatus (db : DB) (projectId : Nat)
    (s : String)
    (h : (db.projects.find? (fun p => p.id == projectId)).isSome = true) :
    projectStatus (setProjectStatus db projectId s) projectId = some s := by
  obtain ⟨p, hp⟩ := Option.isSome_iff_exists.mp h
  unfold projectStatus setProjectStatus
  rw [find?_map_setStatus, hp]
  rfl

/-- C5, counterexample: with agent stubs that raise on every phase and the
default state, the run ends after the first failed phase (not after
max_errors = 3 failed iterations) and the project status becomes
"failed" (not "error"): there is no per-iteration error budget in
run_interactive_multi_agent_process at all. -/
theorem c5_first_error_aborts_concrete :
    (runInteractiveMultiAgentProcess runnerEnvAllRaise dbP1 1 0).phasesAttempted = 1 ∧
    projectStatus (runInteractiveMultiAgentProcess runnerEnvAllRaise dbP1 1 0).db 1 =
      some "failed" ∧
    (1 : Nat) ≠ 3 ∧
    ("failed" : String) ≠ "error" := by
  refine ⟨by decide, by decide, by decide, by decide⟩

/-- C5, amended: any phase exception aborts the whole run at once: when the
research agent raises on an existing project, the run performs exactly one
phase attempt, sets the project status to "failed", and writes no
version.  In particular a run whose agents raise on every phase terminates
after one failed phase, not after max_errors iterations. -/
theorem c5_abort_on_first_error (env : RunnerEnv) (db : DB)
    (projectId : Nat) (now : Nat) (e : String)
    (hproj : (db.projects.find? (fun p => p.id == projectId)).isSome = true)
    (hres : env.research = Except.error e) :
    (runInteractiveMultiAgentProcess env db projectId now).phasesAttempted = 1 ∧
    projectStatus (runInteractiveMultiAgentProcess env db projectId now).db
      projectId = some "failed" ∧
    (runInteractiveMultiAgentProcess env db projectId now).db.versions =
      db.versions := by
  have hnone : (db.projects.find? (fun p => p.id == projectId)).isNone = false := by
    rw [Option.isNone_eq_false_iff]
    exact hproj
  unfold runInteractiveMultiAgentProcess
  rw [if_neg (by simp [hnone]), hres]
  refine ⟨rfl, ?_, rfl⟩
  exact projectStatus_setProjectStatus db projectId "failed" hproj

/-- C5, witness: the amended theorem applied to the always-raising stubs on
the one-project store. -/
theorem c5_witness :
    (runInteractiveMultiAgentProcess runnerEnvAllRaise dbP1 1 0).db.versions =
      dbP1.versions :=
  (c5_abort_on_first_error runnerEnvAllRaise dbP1 1 0 "research raised"
    (by decide) rfl).2.2

/-! ### Claims about the ResearchAggregator (C2, C6, C9) -/

theorem attemptLoop_attemptsMade (call : Nat → Except String (List RawPaper))
    (format : List RawPaper → List Paper) (sleepDelay : Nat)
    (sleepOnError : Bool) :
    ∀ (fuel attempt : Nat) (errMsg : Option String) (sleeps : List Nat),
      (attemptLoop call format sleepDelay sleepOnError attempt fuel errMsg
        sleeps).attemptsMade ≤ attempt + fuel := by
  intro fuel
  induction fuel with
  | zero => intro attempt errMsg sleeps; simp [attemptLoop]
  | succ n ih =>
    intro attempt errMsg sleeps
    simp only [attemptLoop]
    split
    · split
      · have := ih (attempt + 1) errMsg sleeps
        omega
      · simp only []
        omega
    · rename_i e heq
      have := ih (attempt + 1) (some e)
        (if sleepOnError then sleeps ++ [sleepDelay] else sleeps)
      omega

theorem attemptLoop_sleeps_all (call : Nat → Except String (List RawPaper))
    (format : List RawPaper → List Paper) (sleepDelay : Nat)
    (sleepOnError : Bool) :
    ∀ (fuel attempt : Nat) (errMsg : Option String) (sleeps : List Nat),
      (∀ x ∈ sleeps, x = sleepDelay) →
      ∀ x ∈ (attemptLoop call format sleepDelay sleepOnError attempt fuel
        errMsg sleeps).sleeps, x = sleepDelay := by
  intro fuel
  induction fuel with
  | zero => intro attempt errMsg sleeps hall; simpa [attemptLoop] using hall
  | succ n ih =>
    intro attempt errMsg sleeps hall
    simp only [attemptLoop]
    split
    · split
      · exact ih (attempt + 1) errMsg sleeps hall
      · simpa using hall
    · rename_i e heq
      apply ih (attempt + 1) (some e)
      intro x hx
      cases sleepOnError with
      | true =>
        simp only [if_pos rfl] at hx
        rcases List.mem_append.mp hx with h1 | h1
        · exact hall x h1
        · simpa using h1
      | false => exact hall x (by simpa using hx)

theorem attemptLoop_no_sleep (call : Nat → Except String (List RawPaper))
    (format : List RawPaper → List Paper) (sleepDelay : Nat) :
    ∀ (fuel attempt : Nat) (errMsg : Option String) (sleeps : List Nat),
      (attemptLoop call format sleepDelay false attempt fuel errMsg
        sleeps).sleeps = sleeps := by
  intro fuel
  induction fuel with
  | zero => intro attempt errMsg sleeps; simp [attemptLoop]
  | succ n ih =>
    intro attempt errMsg sleeps
    simp only [attemptLoop]
    split
    · split
      · exact ih (attempt + 1) errMsg sleeps
      · rfl
    · rename_i e heq
      simpa using ih (attempt + 1) (some e) sleeps

/-- C6, counterexample: with an arXiv provider raising on every attempt, the
aggregator records three sleeps of 5 seconds each — one after every
attempt including the final one, all of the same constant duration —
whereas the claim predicts exactly two sleeps (none after the final
attempt) of exponentially growing durations base_delay * 2^attempt. -/
theorem c6_constant_sleep_after_final :
    (researchProcess envAllFail ["arxiv"] "t").sleeps =
      [retryDelay, retryDelay, retryDelay] ∧
    (researchProcess envAllFail ["arxiv"] "t").sleeps.length ≠
      maxRetryAttempts - 1 ∧
    (researchProcess envAllFail ["arxiv"] "t").sleeps ≠
      [retryDelay, retryDelay * 2] := by
  refine ⟨by decide, by decide, by decide⟩

/-- C6, amended: each source is attempted up to max_retry_attempts = 3 times
(Google Scholar only once); every recorded sleep is the constant
retry_delay = 5 seconds — there is no exponential backoff — a sleep
follows every attempt that raised, including the final one, and the
Google Scholar branch never sleeps at all. -/
theorem c6_retry_policy (env : ProviderEnv) :
    (runSource env "arxiv").attemptsMade ≤ maxRetryAttempts ∧
    (runSource env "google_scholar").attemptsMade ≤ 1 ∧
    (runSource env "pubmed").attemptsMade ≤ maxRetryAttempts ∧
    ((runSource env "arxiv").sleeps.all (fun d => d == retryDelay)) = true ∧
    (runSource env "google_scholar").sleeps = [] ∧
    ((runSource env "pubmed").sleeps.all (fun d => d == retryDelay)) = true := by
  have harx : runSource env "arxiv" =
      attemptLoop env.arxiv (fun l => l.map (formatArxivPaper env.keyPointsLLM))
        retryDelay true 0 maxRetryAttempts none [] := by
    simp [runSource]
  have hsch : runSource env "google_scholar" =
      attemptLoop env.scholar
        (fun l => l.map (formatGoogleScholarPaper env.keyPointsLLM))
        retryDelay false 0 1 none [] := by
    simp [runSource]
  have hpub : runSource env "pubmed" =
      attemptLoop env.pubmed
        (fun l => l.map (formatPubmedPaper env.keyPointsLLM))
        retryDelay true 0 maxRetryAttempts none [] := by
    simp [runSource]
  refine ⟨?_, ?_, ?_, ?_, ?_, ?_⟩
  · rw [harx]
    simpa using attemptLoop_attemptsMade env.arxiv _ retryDelay true
      maxRetryAttempts 0 none []
  · rw [hsch]
    simpa using attemptLoop_attemptsMade env.scholar _ retryDelay false 1 0
      none []
  · rw [hpub]
    simpa using attemptLoop_attemptsMade env.pubmed _ retryDelay true
      maxRetryAttempts 0 none []
  · rw [harx]
    rw [List.all_eq_true]
    intro d hd
    have := attemptLoop_sleeps_all env.arxiv _ retryDelay true
      maxRetryAttempts 0 none [] (by simp) d hd
    simp [this]
  · rw [hsch]
    exact attemptLoop_no_sleep env.scholar _ retryDelay 1 0 none []
  · rw [hpub]
    rw [List.all_eq_true]
    intro d hd
    have := attemptLoop_sleeps_all env.pubmed _ retryDelay true
      maxRetryAttempts 0 none [] (by simp) d hd
    simp [this]

theorem padKeyPoints_take_length (l : List String) :
    (padKeyPoints (l.take 3)).length = 3 := by
  unfold padKeyPoints
  rw [List.length_append, List.length_replicate]
  have h := l.length_take 3
  omega

theorem fallbackKeyPoints_length (abstract : String) :
    (fallbackKeyPoints abstract).length = 3 := by
  unfold fallbackKeyPoints
  exact padKeyPoints_take_length _

/-- C9, counterexample: a paper returned by the aggregation whose abstract is
shorter than 20 characters gets the single placeholder key point, not a
list of exactly 3: key-point extraction returns a 1-element list for it. -/
theorem c9_short_abstract_one_point :
    ((researchProcess envShortAbstract ["arxiv"] "t").result.papers.map
      (fun p => p.keyPoints.length)) = [1] ∧
    (1 : Nat) ≠ 3 := by
  refine ⟨by decide, by decide⟩

/-- C9, amended: for every abstract whose stripped length is at least 20 the
key-point extraction returns exactly 3 points — via the LLM path truncated
and padded to 3, or via the 20-to-100-character sentence fallback padded
to 3 — while shorter abstracts yield the single placeholder list. -/
theorem c9_three_key_points (llm : String → Except String String)
    (abstract : String) (h : 20 ≤ (pyStrip abstract).length) :
    (extractKeyPointsFromAbstract llm abstract).length = 3 := by
  unfold extractKeyPointsFromAbstract
  rw [if_neg (by omega)]
  split
  · split
    · exact fallbackKeyPoints_length abstract
    · exact padKeyPoints_take_length _
  · exact fallbackKeyPoints_length abstract

/-- C9, witness: the amended theorem applied to a failing LLM oracle and a
long-enough abstract. -/
theorem c9_witness :
    (extractKeyPointsFromAbstract envAllFail.keyPointsLLM
      "This abstract is long enough to be summarized properly. It contains sentences of reasonable length for the fallback.").length = 3 :=
  c9_three_key_points envAllFail.keyPointsLLM
    "This abstract is long enough to be summarized properly. It contains sentences of reasonable length for the fallback."
    (by decide)

theorem createLlmGeneratedPapers_length (topic : String) (c : Nat) :
    (createLlmGeneratedPapers topic c).length = min c 7 := by
  unfold createLlmGeneratedPapers
  rw [List.length_map, List.length_range]
  rfl

/-- C2: for every environment (in particular one where every provider fails
on every attempt and the LLM fallback fails too), every source list and
every topic, the aggregation returns a non-empty papers list — the
fallback chain ends in the offline template generator.  The second
conjunct is the payload of the outer exception handler of
ResearchAgent.process, also non-empty.  The function is total by
construction, which models that process never raises to its caller. -/
theorem c2_papers_nonempty (env : ProviderEnv) (sources : List String)
    (topic : String) :
    (researchProcess env sources topic).result.papers ≠ [] ∧
    createLlmGeneratedPapers topic 3 ≠ [] := by
  have hgen : ∀ c, 0 < c → createLlmGeneratedPapers topic c ≠ [] := by
    intro c hc hcon
    have := congrArg List.length hcon
    rw [createLlmGeneratedPapers_length] at this
    simp at this
    omega
  refine ⟨?_, hgen 3 (by omega)⟩
  simp only [researchProcess]
  split
  · cases hllm : env.llmPapers with
    | ok llmList =>
      simp only []
      split
      · simpa using (by assumption : (!(llmList.map
          (formatLlmSuggestedPaper topic)).isEmpty) = true)
      · exact hgen 5 (by omega)
    | error e => exact hgen 5 (by omega)
  · rename_i hcond
    by_cases hnone : (sources == ["none"]) = true
    · show (gatherPapersPhase env sources topic).allPapers ≠ []
      unfold gatherPapersPhase
      rw [if_pos hnone]
      exact hgen 5 (by omega)
    · show (gatherPapersPhase env sources topic).allPapers ≠ []
      have hie : (gatherPapersPhase env sources topic).allPapers.isEmpty = false := by
        by_contra hcon
        apply hcond
        simp at hcon
        simp [hcon, hnone]
      intro hcon
      rw [hcon] at hie
      simp at hie

/-! ### Claims about the CommunicationBus (C7) -/

theorem alookup_append {α : Type} (l : List (String × α)) (k k2 : String)
    (v : α) :
    alookup (l ++ [(k, v)]) k2 =
      match alookup l k2 with
      | some x => some x
      | none => if k == k2 then some v else none := by
  induction l with
  | nil => simp [alookup]
  | cons p rest ih =>
    by_cases hp : (p.1 == k2) = true
    · simp [alookup, hp]
    · simp only [List.cons_append, alookup, hp]
      rw [if_neg (by simp [hp]), if_neg (by simp [hp])]
      exact ih

theorem alookup_amodify_self {α : Type} (l : List (String × α)) (k : String)
    (f : α → α) :
    alookup (amodify l k f) k = (alookup l k).map f := by
  induction l with
  | nil => simp [alookup, amodify]
  | cons p rest ih =>
    obtain ⟨k1, v1⟩ := p
    by_cases hp : (k1 == k) = true
    · simp [amodify, alookup, hp]
    · simp [amodify, alookup, hp, ih]

theorem alookup_amodify_ne {α : Type} (l : List (String × α)) (k k2 : String)
    (f : α → α) (h : k ≠ k2) :
    alookup (amodify l k f) k2 = alookup l k2 := by
  induction l with
  | nil => simp [alookup, amodify]
  | cons p rest ih =>
    obtain ⟨k1, v1⟩ := p
    by_cases hp : (k1 == k) = true
    · have hpk : k1 = k := by simpa using hp
      have hp2 : (k1 == k2) = false := by
        subst hpk
        simpa using h
      simp [amodify, alookup, hp, hp2, ih]
    · by_cases hp2 : (k1 == k2) = true
      · simp [amodify, alookup, hp, hp2]
      · simp [amodify, alookup, hp, hp2, ih]

theorem alookup_amodify_isSome {α : Type} (l : List (String × α))
    (k k2 : String) (f : α → α) :
    (alookup (amodify l k f) k2).isSome = (alookup l k2).isSome := by
  by_cases h : k = k2
  · subst h
    rw [alookup_amodify_self]
    cases alookup l k <;> simp
  · rw [alookup_amodify_ne l k k2 f h]

theorem send_message_fst (st : CommState) (A B msg mt : String) (now : Nat)
    (hA : (alookup st.agentStates A).isSome = true)
    (hB : (alookup st.agentStates B).isSome = true) :
    (send_message st A B msg mt now).1 =
      SendResult.success (canonicalConvId st A B)
        ((convMessages st (canonicalConvId st A B)).length + 1) := by
  unfold send_message
  have hA2 : ¬ alookup st.agentStates A = none := by
    intro hcon
    rw [hcon] at hA
    simp at hA
  have hB2 : ¬ alookup st.agentStates B = none := by
    intro hcon
    rw [hcon] at hB
    simp at hB
  rw [if_neg (by simp only [Option.isNone_iff_eq_none]; exact hA2)]
  rw [if_neg (by simp only [Option.isNone_iff_eq_none]; exact hB2)]
  cases hc : alookup st.conversations (canonicalConvId st A B) with
  | some c => simp [hc, convMessages]
  | none => simp [hc, convMessages, alookup_append]

theorem send_message_agentStates (st : CommState) (A B msg mt : String)
    (now : Nat)
    (hA : (alookup st.agentStates A).isSome = true)
    (hB : (alookup st.agentStates B).isSome = true) :
    (send_message st A B msg mt now).2.agentStates =
      amodify (amodify st.agentStates A
        (fun a => { a with lastActive := now, status := "sent_message" })) B
        (fun a => { a with status := "received_message" }) := by
  unfold send_message
  have hA2 : ¬ alookup st.agentStates A = none := by
    intro hcon
    rw [hcon] at hA
    simp at hA
  have hB2 : ¬ alookup st.agentStates B = none := by
    intro hcon
    rw [hcon] at hB
    simp at hB
  rw [if_neg (by simp only [Option.isNone_iff_eq_none]; exact hA2)]
  rw [if_neg (by simp only [Option.isNone_iff_eq_none]; exact hB2)]
  cases hc : alookup st.conversations (canonicalConvId st A B) with
  | some c => simp [hc]
  | none => simp [hc]

theorem send_message_conv_isSome (st : CommState) (A B msg mt : String)
    (now : Nat) (x : String)
    (hA : (alookup st.agentStates A).isSome = true)
    (hB : (alookup st.agentStates B).isSome = true) :
    (alookup (send_message st A B msg mt now).2.conversations x).isSome =
      ((alookup st.conversations x).isSome ||
        (x == canonicalConvId st A B)) := by
  unfold send_message
  have hA2 : ¬ alookup st.agentStates A = none := by
    intro hcon
    rw [hcon] at hA
    simp at hA
  have hB2 : ¬ alookup st.agentStates B = none := by
    intro hcon
    rw [hcon] at hB
    simp at hB
  rw [if_neg (by simp only [Option.isNone_iff_eq_none]; exact hA2)]
  rw [if_neg (by simp only [Option.isNone_iff_eq_none]; exact hB2)]
  by_cases hx : x = canonicalConvId st A B
  · subst hx
    cases hc : alookup st.conversations (canonicalConvId st A B) with
    | some c => simp [hc, alookup_amodify_self]
    | none => simp [hc, alookup_amodify_self, alookup_append]
  · have hxb : (x == canonicalConvId st A B) = false := by
      simpa using hx
    cases hc : alookup st.conversations (canonicalConvId st A B) with
    | some c =>
      simp only [hc, Option.isNone_some, Bool.false_eq_true, if_false]
      rw [alookup_amodify_ne _ _ _ _ (fun h => hx h.symm)]
      simp [hxb]
    | none =>
      simp only [hc, Option.isNone_none, if_true]
      rw [alookup_amodify_ne _ _ _ _ (fun h => hx h.symm)]
      rw [alookup_append]
      cases hx2 : alookup st.conversations x with
      | some c2 => simp [hxb]
      | none =>
        have : (canonicalConvId st A B == x) = false := by
          simp
          exact fun h => hx h.symm
        simp [this, hxb]

theorem send_message_convMessages (st : CommState) (A B msg mt : String)
    (now : Nat)
    (hA : (alookup st.agentStates A).isSome = true)
    (hB : (alookup st.agentStates B).isSome = true) :
    convMessages (send_message st A B msg mt now).2
        (canonicalConvId st A B) =
      convMessages st (canonicalConvId st A B) ++
        [{ id := (convMessages st (canonicalConvId st A B)).length + 1,
           sender := A, recipient := B, content := msg, type := mt,
           timestamp := now }] := by
  unfold send_message
  have hA2 : ¬ alookup st.agentStates A = none := by
    intro hcon
    rw [hcon] at hA
    simp at hA
  have hB2 : ¬ alookup st.agentStates B = none := by
    intro hcon
    rw [hcon] at hB
    simp at hB
  rw [if_neg (by simp only [Option.isNone_iff_eq_none]; exact hA2)]
  rw [if_neg (by simp only [Option.isNone_iff_eq_none]; exact hB2)]
  cases hc : alookup st.conversations (canonicalConvId st A B) with
  | some c => simp [hc, convMessages, alookup_amodify_self]
  | none => simp [hc, convMessages, alookup_amodify_self, alookup_append]

theorem canonicalConvId_after_send (st : CommState) (A B msg mt : String)
    (now : Nat)
    (hA : (alookup st.agentStates A).isSome = true)
    (hB : (alookup st.agentStates B).isSome = true)
    (hnb : ¬((alookup st.conversations (A ++ "_" ++ B)).isSome = true ∧
             (alookup st.conversations (B ++ "_" ++ A)).isSome = true)) :
    canonicalConvId (send_message st A B msg mt now).2 B A =
      canonicalConvId st A B := by
  have hpres : ∀ x, (alookup (send_message st A B msg mt now).2.conversations
      x).isSome = ((alookup st.conversations x).isSome ||
        (x == canonicalConvId st A B)) :=
    fun x => send_message_conv_isSome st A B msg mt now x hA hB
  have hL : canonicalConvId (send_message st A B msg mt now).2 B A =
      if ((alookup (send_message st A B msg mt now).2.conversations
            (A ++ "_" ++ B)).isSome &&
          (alookup (send_message st A B msg mt now).2.conversations
            (B ++ "_" ++ A)).isNone) = true
      then A ++ "_" ++ B else B ++ "_" ++ A := rfl
  by_cases hcond : ((alookup st.conversations (B ++ "_" ++ A)).isSome &&
      (alookup st.conversations (A ++ "_" ++ B)).isNone) = true
  · -- the first send reused the reverse id B_A
    have hcond2 := hcond
    rw [Bool.and_eq_true] at hcond2
    obtain ⟨ha1, hf1none⟩ := hcond2
    have hcid : canonicalConvId st A B = B ++ "_" ++ A := by
      unfold canonicalConvId
      rw [if_pos hcond]
    have hne : (A ++ "_" ++ B) ≠ (B ++ "_" ++ A) := by
      intro hcon
      rw [Option.isNone_iff_eq_none] at hf1none
      rw [← hcon, hf1none] at ha1
      simp at ha1
    have hf1post : (alookup (send_message st A B msg mt now).2.conversations
        (A ++ "_" ++ B)).isSome = false := by
      rw [hpres, hcid]
      rw [Option.isNone_iff_eq_none] at hf1none
      simp [hf1none]
      exact hne
    rw [hL, if_neg (by simp [hf1post]), hcid]
  · -- the first send used the forward id A_B
    have hcid : canonicalConvId st A B = A ++ "_" ++ B := by
      unfold canonicalConvId
      rw [if_neg hcond]
    by_cases heq : (A ++ "_" ++ B) = (B ++ "_" ++ A)
    · rw [hL, hcid, ← heq]
      split <;> rfl
    · have ha1post : (alookup (send_message st A B msg mt now).2.conversations
          (B ++ "_" ++ A)).isSome = false := by
        rw [hpres, hcid]
        have hbeq : ((B ++ "_" ++ A) == (A ++ "_" ++ B)) = false := by
          simp
          exact fun hcon => heq hcon.symm
        rw [hbeq]
        simp only [Bool.or_false]
        by_cases ha1 : (alookup st.conversations (B ++ "_" ++ A)).isSome = true
        · exfalso
          have hf1 : (alookup st.conversations (A ++ "_" ++ B)).isSome = true := by
            by_contra hf1n
            have hf1n2 : (alookup st.conversations (A ++ "_" ++ B)).isSome = false := by
              simpa using hf1n
            have hisnone : (alookup st.conversations (A ++ "_" ++ B)).isNone = true := by
              cases halt : alookup st.conversations (A ++ "_" ++ B) with
              | none => simp
              | some c =>
                rw [halt] at hf1n2
                simp at hf1n2
            exact hcond (by rw [ha1, hisnone]; rfl)
          exact hnb ⟨hf1, ha1⟩
        · simpa using ha1
      have hisnone2 : (alookup (send_message st A B msg mt now).2.conversations
          (B ++ "_" ++ A)).isNone = true := by
        rw [Option.isNone_iff_eq_none]
        cases hfin : alookup (send_message st A B msg mt now).2.conversations
            (B ++ "_" ++ A) with
        | none => rfl
        | some c =>
          rw [hfin] at ha1post
          simp at ha1post
      have hf1post : (alookup (send_message st A B msg mt now).2.conversations
          (A ++ "_" ++ B)).isSome = true := by
        rw [hpres, hcid]
        simp
      rw [hL, if_pos (by rw [hf1post, hisnone2]; rfl), hcid]

/-- C7, counterexample: on a successful send the code updates the status of
both agents and the last_active of the sender, but NOT the last_active of
the recipient: after A sends to B at time 5 (both registered at time 0),
B still carries last_active 0 while A carries 5. -/
theorem c7_recipient_last_active_not_updated :
    (send_message commStateAB "A" "B" "hi" "information" 5).1 =
      SendResult.success "A_B" 1 ∧
    (alookup (send_message commStateAB "A" "B" "hi" "information" 5).2.agentStates
      "A").map (fun a => a.lastActive) = some 5 ∧
    (alookup (send_message commStateAB "A" "B" "hi" "information" 5).2.agentStates
      "B").map (fun a => a.lastActive) = some 0 ∧
    (0 : Nat) ≠ 5 := by
  refine ⟨by decide, by decide, by decide, by decide⟩

/-- C7, amended: send_message fails with "Unknown sender" when the sender id
is unregistered (checked first) and with "Unknown recipient" when the
sender is registered but the recipient is not, leaving the state
untouched; when both are registered it succeeds under the canonical
conversation id (reusing the reverse-direction id when only that one
exists) with message id = len(existing messages) + 1, sets the sender
status to sent_message with last_active := now, sets the recipient status
to received_message while leaving the recipient last_active unchanged,
and a following reverse-direction send lands in the same conversation
with the next message id (provided the two direction ids were not both
already present, which is impossible in states built by send_message). -/
theorem c7_send_message (st : CommState) (A B msg mt msg2 mt2 : String)
    (now now2 : Nat) :
    ((alookup st.agentStates A).isSome = false →
      send_message st A B msg mt now =
        (SendResult.failure "Unknown sender", st)) ∧
    ((alookup st.agentStates A).isSome = true →
      (alookup st.agentStates B).isSome = false →
      send_message st A B msg mt now =
        (SendResult.failure "Unknown recipient", st)) ∧
    ((alookup st.agentStates A).isSome = true →
      (alookup st.agentStates B).isSome = true →
      (send_message st A B msg mt now).1 =
        SendResult.success (canonicalConvId st A B)
          ((convMessages st (canonicalConvId st A B)).length + 1) ∧
      (A ≠ B →
        alookup (send_message st A B msg mt now).2.agentStates A =
          (alookup st.agentStates A).map
            (fun a => { a with lastActive := now,
                               status := "sent_message" }) ∧
        alookup (send_message st A B msg mt now).2.agentStates B =
          (alookup st.agentStates B).map
            (fun a => { a with status := "received_message" }))) ∧
    ((alookup st.agentStates A).isSome = true →
      (alookup st.agentStates B).isSome = true →
      ¬((alookup st.conversations (A ++ "_" ++ B)).isSome = true ∧
        (alookup st.conversations (B ++ "_" ++ A)).isSome = true) →
      (send_message (send_message st A B msg mt now).2 B A msg2 mt2
        now2).1 =
        SendResult.success (canonicalConvId st A B)
          ((convMessages st (canonicalConvId st A B)).length + 2)) := by
  refine ⟨?_, ?_, ?_, ?_⟩
  · intro h
    have h2 : alookup st.agentStates A = none := by
      cases hc : alookup st.agentStates A with
      | none => rfl
      | some a => rw [hc] at h; simp at h
    unfold send_message
    rw [if_pos (by rw [h2]; rfl)]
  · intro hAt hBf
    have h2 : alookup st.agentStates B = none := by
      cases hc : alookup st.agentStates B with
      | none => rfl
      | some a => rw [hc] at hBf; simp at hBf
    have hAnn : ¬ alookup st.agentStates A = none := by
      intro hcon
      rw [hcon] at hAt
      simp at hAt
    unfold send_message
    rw [if_neg (by simp only [Option.isNone_iff_eq_none]; exact hAnn)]
    rw [if_pos (by rw [h2]; rfl)]
  · intro hAt hBt
    refine ⟨send_message_fst st A B msg mt now hAt hBt, ?_⟩
    intro hAB
    constructor
    · rw [send_message_agentStates st A B msg mt now hAt hBt]
      rw [alookup_amodify_ne _ B A _ (fun hcon => hAB hcon.symm)]
      rw [alookup_amodify_self]
    · rw [send_message_agentStates st A B msg mt now hAt hBt]
      rw [alookup_amodify_self]
      rw [alookup_amodify_ne _ A B _ hAB]
  · intro hAt hBt hnb
    have hA2 : (alookup (send_message st A B msg mt now).2.agentStates
        A).isSome = true := by
      rw [send_message_agentStates st A B msg mt now hAt hBt,
        alookup_amodify_isSome, alookup_amodify_isSome]
      exact hAt
    have hB2 : (alookup (send_message st A B msg mt now).2.agentStates
        B).isSome = true := by
      rw [send_message_agentStates st A B msg mt now hAt hBt,
        alookup_amodify_isSome, alookup_amodify_isSome]
      exact hBt
    rw [send_message_fst (send_message st A B msg mt now).2 B A msg2 mt2 now2
      hB2 hA2]
    rw [canonicalConvId_after_send st A B msg mt now hAt hBt hnb]
    rw [send_message_convMessages st A B msg mt now hAt hBt]
    simp

/-- C7, witness: the amended theorem applied to the concrete two-agent state:
A sends to B and then B answers A; both messages land in conversation
A_B with message ids 1 and 2. -/
theorem c7_witness :
    (send_message (send_message commStateAB "A" "B" "hi" "information" 5).2
      "B" "A" "yo" "information" 6).1 = SendResult.success "A_B" 2 := by
  have h := (c7_send_message commStateAB "A" "B" "hi" "information" "yo"
    "information" 5 6).2.2.2 (by decide) (by decide) (by decide)
  rw [h]
  decide
